import Mathlib

/-!
Verification of the MassGen v2 agent-backend layer
(`massgen/v2/agent_backend.py`) against its specification.

Shallow embedding conventions:
- Python `int` is `Int`; Python `float` amounts (costs) are modelled as
  exact rationals `ℚ` (all cost arithmetic in the source is addition,
  multiplication and division of small decimal literals).
- Optional attributes of provider SDK objects (`hasattr` / `getattr`
  with a default) are modelled as `Option` fields.
- An async generator is modelled as a function from its inputs (the
  sequence of provider events it consumes, plus an optional exception
  raised while preparing or consuming the provider call) to the list of
  chunks it yields together with the final accumulator state.
-/

namespace MassGen

/-- Modelled from the spec: `StreamChunk` (defined in
`massgen/v2/chat_agent.py`, which is not part of the sources here) —
the tagged union over content / tool_calls / error / done with fields
`type`, `content`, `error`, `source`, `status` (spec §3). -/
structure StreamChunk where
  type : String
  content : Option String := none
  error : Option String := none
  source : Option String := none
  status : Option String := none
deriving DecidableEq, Repr

/-- `TokenUsage` dataclass: token usage and cost tracking.
`timestamp` is set from the wall clock in `__post_init__`; the clock is
external, so the field is carried but left unconstrained. -/
structure TokenUsage where
  input_tokens : Int := 0
  output_tokens : Int := 0
  estimated_cost : ℚ := 0
  model : Option String := none
  provider : Option String := none
  timestamp : Option ℚ := none
deriving DecidableEq, Repr

/-- A `TokenUsage()` freshly constructed with all defaults (zero totals). -/
def freshTokenUsage : TokenUsage := { }

/-- `TokenUsage.add_usage`: add token usage to the current totals. -/
def TokenUsage.add_usage (u : TokenUsage) (input_tokens output_tokens : Int)
    (cost : ℚ) : TokenUsage :=
  { u with
    input_tokens := u.input_tokens + input_tokens
    output_tokens := u.output_tokens + output_tokens
    estimated_cost := u.estimated_cost + cost }

/-- `TokenUsage.get_total_tokens`: total tokens used. -/
def TokenUsage.get_total_tokens (u : TokenUsage) : Int :=
  u.input_tokens + u.output_tokens

/-- A finite sequence of `add_usage` calls `(input_tokens, output_tokens, cost)`
replayed in order against an accumulator. -/
def apply_usage_calls (u : TokenUsage) (calls : List (Int × Int × ℚ)) : TokenUsage :=
  calls.foldl (fun acc c => acc.add_usage c.1 c.2.1 c.2.2) u

lemma apply_usage_calls_fields (calls : List (Int × Int × ℚ)) :
    ∀ u : TokenUsage,
      (apply_usage_calls u calls).input_tokens
          = u.input_tokens + (calls.map (fun c => c.1)).sum ∧
      (apply_usage_calls u calls).output_tokens
          = u.output_tokens + (calls.map (fun c => c.2.1)).sum ∧
      (apply_usage_calls u calls).estimated_cost
          = u.estimated_cost + (calls.map (fun c => c.2.2)).sum := by
  induction calls with
  | nil => intro u; simp [apply_usage_calls]
  | cons c cs ih =>
      intro u
      have h := ih (u.add_usage c.1 c.2.1 c.2.2)
      refine ⟨?_, ?_, ?_⟩
      · have := h.1
        simp only [apply_usage_calls, List.foldl_cons] at this ⊢
        rw [this]
        simp [TokenUsage.add_usage, add_assoc]
      · have := h.2.1
        simp only [apply_usage_calls, List.foldl_cons] at this ⊢
        rw [this]
        simp [TokenUsage.add_usage, add_assoc]
      · have := h.2.2
        simp only [apply_usage_calls, List.foldl_cons] at this ⊢
        rw [this]
        simp [TokenUsage.add_usage, add_assoc]

/-- C6: `get_total_tokens()` returns exactly `input_tokens + output_tokens`. -/
theorem get_total_tokens_spec (u : TokenUsage) :
    u.get_total_tokens = u.input_tokens + u.output_tokens := rfl

/-- C4: after any finite sequence of `add_usage` calls on a fresh
accumulator, the totals equal the component-wise sums of the call
arguments (plus the initial zeros), and replaying the same call
sequence against a fresh accumulator yields identical totals. -/
theorem token_usage_sum (calls : List (Int × Int × ℚ)) :
    (apply_usage_calls freshTokenUsage calls).input_tokens
        = (calls.map (fun c => c.1)).sum ∧
    (apply_usage_calls freshTokenUsage calls).output_tokens
        = (calls.map (fun c => c.2.1)).sum ∧
    (apply_usage_calls freshTokenUsage calls).estimated_cost
        = (calls.map (fun c => c.2.2)).sum ∧
    apply_usage_calls freshTokenUsage calls
        = apply_usage_calls freshTokenUsage calls := by
  have h := apply_usage_calls_fields calls freshTokenUsage
  refine ⟨?_, ?_, ?_, rfl⟩
  · rw [h.1]; simp [freshTokenUsage]
  · rw [h.2.1]; simp [freshTokenUsage]
  · rw [h.2.2]; simp [freshTokenUsage]

/-- C2 counterexample: `add_usage` performs unguarded `+=`, so a call with
a negative `input_tokens` argument strictly decreases the total, refuting
the claim that every call leaves each field no smaller than before. -/
theorem add_usage_monotone_cex :
    (freshTokenUsage.add_usage (-1) 0 0).input_tokens = -1 ∧
    ¬ freshTokenUsage.input_tokens ≤ (freshTokenUsage.add_usage (-1) 0 0).input_tokens := by
  constructor
  · rfl
  · decide

/-- C2 (amended): for every `add_usage` call whose `input_tokens`,
`output_tokens` and `cost` arguments are non-negative, each of the three
accumulated fields after the call is greater than or equal to its value
before the call. -/
theorem add_usage_monotone (u : TokenUsage) (i o : Int) (c : ℚ)
    (hi : 0 ≤ i) (ho : 0 ≤ o) (hc : 0 ≤ c) :
    u.input_tokens ≤ (u.add_usage i o c).input_tokens ∧
    u.output_tokens ≤ (u.add_usage i o c).output_tokens ∧
    u.estimated_cost ≤ (u.add_usage i o c).estimated_cost := by
  refine ⟨?_, ?_, ?_⟩
  · exact le_add_of_nonneg_right hi
  · exact le_add_of_nonneg_right ho
  · exact le_add_of_nonneg_right hc

/-- C2 witness: the amended monotonicity instantiated at a concrete call. -/
theorem add_usage_monotone_witness :
    freshTokenUsage.input_tokens ≤ (freshTokenUsage.add_usage 3 4 0).input_tokens ∧
    freshTokenUsage.output_tokens ≤ (freshTokenUsage.add_usage 3 4 0).output_tokens ∧
    freshTokenUsage.estimated_cost ≤ (freshTokenUsage.add_usage 3 4 0).estimated_cost :=
  add_usage_monotone freshTokenUsage 3 4 0 (by decide) (by decide) (by norm_num)

/-! ### Python string primitives

The source uses `str.lower`, `str.endswith` and `str.replace`. These are
embedded over `List Char` (ASCII case mapping, as all strings involved
are ASCII). -/

/-- Python `str.lower` on one character (ASCII range). -/
def py_char_lower (c : Char) : Char :=
  if 65 ≤ c.toNat ∧ c.toNat ≤ 90 then Char.ofNat (c.toNat + 32) else c

/-- Python `str.lower` (ASCII). -/
def py_lower (s : String) : String := ⟨s.data.map py_char_lower⟩

/-- Python `str.endswith`. -/
def py_endswith (s suf : String) : Bool := suf.data.isSuffixOf s.data

/-- Left-to-right non-overlapping replacement loop over characters, with
fuel bounding the number of steps (fuel = length of the scanned list
suffices, since each step consumes at least one character). -/
def py_replace_loop (rep : List Char) : Nat → List Char → List Char → List Char
  | 0, s, _ => s
  | _ + 1, [], _ => []
  | n + 1, c :: s, old =>
      if old ≠ [] ∧ old.isPrefixOf (c :: s) then
        rep ++ py_replace_loop rep n ((c :: s).drop old.length) old
      else
        c :: py_replace_loop rep n s old

/-- Python `str.replace old rep` (all non-overlapping occurrences,
left to right; the source only calls it with non-empty `old`). -/
def py_replace (s old rep : String) : String :=
  ⟨py_replace_loop rep.data s.data.length s.data old.data⟩

/-! ### `ChatCompletionsBackend.estimate_tokens` -/

/-- `ChatCompletionsBackend.estimate_tokens`: simple estimation,
about 4 characters per token (`len(text) // 4`). -/
def estimate_tokens (text : String) : Nat := text.length / 4

/-- C9: `estimate_tokens` returns `len(text) // 4`; the estimate is
non-negative, is `0` for every string shorter than 4 characters, and is
monotonically non-decreasing in the length of the input. -/
theorem estimate_tokens_spec :
    (∀ s : String, estimate_tokens s = s.length / 4) ∧
    (∀ s : String, 0 ≤ estimate_tokens s) ∧
    (∀ s : String, s.length < 4 → estimate_tokens s = 0) ∧
    (∀ s t : String, s.length ≤ t.length → estimate_tokens s ≤ estimate_tokens t) := by
  refine ⟨fun s => rfl, fun s => Nat.zero_le _, fun s hs => Nat.div_eq_of_lt hs,
    fun s t hst => Nat.div_le_div_right hst⟩

/-- C9 witness: the specification instantiated at concrete strings. -/
theorem estimate_tokens_spec_witness :
    estimate_tokens "abc" = 0 ∧ estimate_tokens "hi" ≤ estimate_tokens "abcdefgh" :=
  ⟨estimate_tokens_spec.2.2.1 "abc" (by decide),
   estimate_tokens_spec.2.2.2 "hi" "abcdefgh" (by decide)⟩

/-! ### Backend construction (`create_backend`) -/

/-- Python truthiness of an optional string attribute (`None` and the
empty string are falsy). -/
def py_truthy (o : Option String) : Bool :=
  match o with
  | none => false
  | some s => !s.data.isEmpty

/-- The result of backend construction: the only concrete backend class
in the source. -/
inductive BackendInstance where
  | openaiResponse (model : String)
deriving DecidableEq, Repr

/-- `OpenAIResponseBackend.__init__`: resolves the API key as
`config.get("api_key") or os.getenv("OPENAI_API_KEY")` and raises
`ValueError("OpenAI API key not found")` when neither is truthy.
`api_key` is the configured key, `env_key` the value of the
`OPENAI_API_KEY` environment variable (external input). The
`ImportError` branch (openai package missing) is environmental and not
modelled. -/
def openai_response_backend_init (model : String)
    (api_key env_key : Option String) : Except String BackendInstance :=
  let key := if py_truthy api_key then api_key else env_key
  if py_truthy key then .ok (.openaiResponse model)
  else .error "OpenAI API key not found"

/-- `create_backend`: factory dispatching on `provider.lower()`;
any provider other than (case-insensitively) "openai" raises
`ValueError(f"Unsupported provider: {provider}")`. -/
def create_backend (provider model : String)
    (api_key env_key : Option String) : Except String BackendInstance :=
  if py_lower provider = "openai" then
    openai_response_backend_init model api_key env_key
  else
    .error ("Unsupported provider: " ++ provider)

/-- C10 counterexample: with provider "openai" but no API key configured
and none in the environment, `create_backend` raises
`ValueError("OpenAI API key not found")` instead of returning an
`OpenAIResponseBackend`, refuting the claimed "if and only if". -/
theorem create_backend_dispatch_cex :
    py_lower "openai" = "openai" ∧
    create_backend "openai" "gpt-4o" none none
      = .error "OpenAI API key not found" := by
  constructor
  · decide
  · rfl

/-- C10 (amended): `create_backend` returns an `OpenAIResponseBackend`
if and only if the provider lower-cases to "openai" and a truthy API key
is available (from the config or the `OPENAI_API_KEY` environment
variable); for every provider not lower-casing to "openai" — including
"anthropic", "google" and "xai" — it raises
`ValueError("Unsupported provider: ...")`. -/
theorem create_backend_dispatch (provider model : String)
    (api_key env_key : Option String) :
    ((create_backend provider model api_key env_key).isOk = true ↔
      (py_lower provider = "openai" ∧
        py_truthy (if py_truthy api_key then api_key else env_key) = true)) ∧
    (py_lower provider ≠ "openai" →
      create_backend provider model api_key env_key
        = .error ("Unsupported provider: " ++ provider)) := by
  constructor
  · constructor
    · intro h
      by_cases hp : py_lower provider = "openai"
      · refine ⟨hp, ?_⟩
        simp only [create_backend, hp, if_pos, openai_response_backend_init] at h
        by_cases hk : py_truthy (if py_truthy api_key then api_key else env_key) = true
        · exact hk
        · rw [if_neg hk] at h
          simp [Except.isOk, Except.toBool] at h
      · simp [create_backend, hp, Except.isOk, Except.toBool] at h
    · rintro ⟨hp, hk⟩
      simp [create_backend, hp, openai_response_backend_init, hk,
        Except.isOk, Except.toBool]
  · intro hp
    simp [create_backend, hp]

/-- C10 witness: the amended dispatch behaviour at concrete inputs:
provider "Anthropic" raises the unsupported-provider error, and provider
"OpenAI" with a configured key yields a backend. -/
theorem create_backend_dispatch_witness :
    create_backend "Anthropic" "claude-3" none none
      = .error ("Unsupported provider: " ++ "Anthropic") ∧
    (create_backend "OpenAI" "gpt-4o" (some "sk-test") none).isOk = true :=
  ⟨(create_backend_dispatch "Anthropic" "claude-3" none none).2 (by decide),
   ((create_backend_dispatch "OpenAI" "gpt-4o" (some "sk-test") none).1).2
     ⟨by decide, by decide⟩⟩

/-! ### Cost calculation (`OpenAIResponseBackend.calculate_cost`) -/

/-- Default value of the `FALLBACK_INPUT_RATE` environment variable
(the variable itself is external input; the default is modelled). -/
def FALLBACK_INPUT_RATE : ℚ := 0.0025

/-- Default value of the `FALLBACK_OUTPUT_RATE` environment variable. -/
def FALLBACK_OUTPUT_RATE : ℚ := 0.01

/-- The static OpenAI pricing table (per 1K tokens): input and output
rates, looked up by base model name. -/
def pricing_lookup (m : String) : Option (ℚ × ℚ) :=
  if m = "gpt-4o" then some (0.0025, 0.01)
  else if m = "gpt-4o-mini" then some (0.00015, 0.0006)
  else if m = "gpt-4" then some (0.03, 0.06)
  else if m = "gpt-3.5-turbo" then some (0.001, 0.002)
  else if m = "o1" then some (0.015, 0.06)
  else if m = "o1-mini" then some (0.003, 0.012)
  else if m = "o3-mini" then some (0.003, 0.012)
  else none

/-- Base model name: the first of the suffixes "-low", "-medium",
"-high" that matches is removed via `str.replace` (note: `replace`
removes every occurrence, exactly as in the source). -/
def base_model_name (model : String) : String :=
  if py_endswith model "-low" then py_replace model "-low" ""
  else if py_endswith model "-medium" then py_replace model "-medium" ""
  else if py_endswith model "-high" then py_replace model "-high" ""
  else model

/-- `OpenAIResponseBackend.calculate_cost`: per-1K-token pricing with a
fallback rate (environment defaults) for unknown models. -/
def calculate_cost (input_tokens output_tokens : Int) (model : String) : ℚ :=
  match pricing_lookup (base_model_name model) with
  | some rates =>
      ((input_tokens : ℚ) / 1000) * rates.1 + ((output_tokens : ℚ) / 1000) * rates.2
  | none =>
      ((input_tokens : ℚ) / 1000) * FALLBACK_INPUT_RATE
        + ((output_tokens : ℚ) / 1000) * FALLBACK_OUTPUT_RATE

/-! ### The streaming loop (`OpenAIResponseBackend.stream_with_tools`)

The provider response is an async iterator of SDK event objects; each
event is modelled by which attributes it carries. An invocation of
`stream_with_tools` is determined by the events it consumes and an
optional exception raised while preparing or consuming the provider
call (the `events` list holds exactly the events consumed before any
such exception). -/

/-- Usage metadata on a `response.completed` event: `getattr` with
default `0` is modelled by `Option Int` fields. -/
structure UsageMeta where
  input_tokens : Option Int := none
  output_tokens : Option Int := none
deriving DecidableEq, Repr

/-- One provider stream event, by `chunk.type` and the attributes read
from it. `otherType` is an event with an unrecognized `type`; `untyped`
is an event without a `type` attribute. -/
inductive RespEvent where
  | outputTextDelta (delta : Option String)
  | functionCallOutputDelta (delta : Option String)
  | completed (usage : Option UsageMeta)
  | otherType
  | untyped
deriving DecidableEq, Repr

/-- Whether an event is a `response.completed` event. -/
def isCompletedEvent : RespEvent → Bool
  | .completed _ => true
  | _ => false

/-- `get_provider_name` of `OpenAIResponseBackend`. -/
def get_provider_name : String := "openai"

/-- The `content` chunk yielded for a non-empty text delta. -/
def contentChunk (delta : String) : StreamChunk :=
  { type := "content", content := some delta, source := some get_provider_name }

/-- The `tool_calls` chunk yielded for a function-call-output delta. -/
def toolCallsChunk (delta : Option String) : StreamChunk :=
  { type := "tool_calls", content := delta, source := some get_provider_name }

/-- The terminal chunk yielded on `response.completed`. -/
def doneCompletedChunk : StreamChunk :=
  { type := "done", source := some get_provider_name, status := some "completed" }

/-- The chunk yielded from the `except` handler. -/
def errorChunk (msg : String) : StreamChunk :=
  { type := "error", error := some msg, source := some get_provider_name }

/-- The loop state of `stream_with_tools`: the accumulated
`text_content` and the `input_tokens` / `output_tokens` locals
(initialized to 0 and overwritten only when a completed event carries a
`usage` attribute), plus the backend's `self.token_usage`. -/
structure StState where
  text_content : String
  input_tokens : Int
  output_tokens : Int
  usage : TokenUsage
deriving DecidableEq, Repr

/-- One iteration of the `async for` loop body: the updated state and
the chunks yielded for this event. -/
def streamStep (model : String) (st : StState) : RespEvent → StState × List StreamChunk
  | .outputTextDelta delta =>
      match delta with
      | some d =>
          if d.data.isEmpty then (st, [])
          else ({ st with text_content := st.text_content ++ d }, [contentChunk d])
      | none => (st, [])
  | .functionCallOutputDelta delta => (st, [toolCallsChunk delta])
  | .completed usage =>
      let toks : Int × Int :=
        match usage with
        | some um => (um.input_tokens.getD 0, um.output_tokens.getD 0)
        | none => (st.input_tokens, st.output_tokens)
      let cost := calculate_cost toks.1 toks.2 model
      ({ st with
          input_tokens := toks.1
          output_tokens := toks.2
          usage := st.usage.add_usage toks.1 toks.2 cost },
       [doneCompletedChunk])
  | .otherType => (st, [])
  | .untyped => (st, [])

/-- The chunks one event contributes (they do not depend on the loop
state). -/
def eventChunks : RespEvent → List StreamChunk
  | .outputTextDelta delta =>
      match delta with
      | some d => if d.data.isEmpty then [] else [contentChunk d]
      | none => []
  | .functionCallOutputDelta delta => [toolCallsChunk delta]
  | .completed _ => [doneCompletedChunk]
  | .otherType => []
  | .untyped => []

/-- The whole `async for` loop over the provider events. -/
def runEvents (model : String) (st : StState) :
    List RespEvent → StState × List StreamChunk
  | [] => (st, [])
  | e :: es =>
      let r1 := streamStep model st e
      let r2 := runEvents model r1.1 es
      (r2.1, r1.2 ++ r2.2)

/-- The observable outcome of one `stream_with_tools` invocation. -/
structure StreamResult where
  usage : TokenUsage
  chunks : List StreamChunk
deriving DecidableEq, Repr

/-- `OpenAIResponseBackend.stream_with_tools`: consumes the provider
events, yielding chunks and updating `self.token_usage` (initially
`usage0`); when an exception is raised while preparing or consuming the
provider call (`exn = some msg`, with `events` the events consumed up
to that point), the `except` handler yields a single `error` chunk and
the generator ends without re-raising. -/
def stream_with_tools (model : String) (usage0 : TokenUsage)
    (events : List RespEvent) (exn : Option String) : StreamResult :=
  let r := runEvents model
    { text_content := "", input_tokens := 0, output_tokens := 0, usage := usage0 } events
  match exn with
  | none => { usage := r.1.usage, chunks := r.2 }
  | some msg => { usage := r.1.usage, chunks := r.2 ++ [errorChunk msg] }

/-- The property claimed of a chunk sequence: exactly one `done` chunk,
positioned last. -/
def terminal_done (cs : List StreamChunk) : Prop :=
  cs.countP (fun c => c.type == "done") = 1 ∧
  cs.getLast?.map (fun c => c.type) = some "done"

instance (cs : List StreamChunk) : Decidable (terminal_done cs) := by
  unfold terminal_done; infer_instance

lemma streamStep_snd (model : String) (st : StState) (e : RespEvent) :
    (streamStep model st e).2 = eventChunks e := by
  cases e with
  | outputTextDelta d =>
      cases d with
      | none => rfl
      | some d =>
          by_cases h : d.data.isEmpty <;> simp [streamStep, eventChunks, h]
  | functionCallOutputDelta d => rfl
  | completed u => rfl
  | otherType => rfl
  | untyped => rfl

lemma streamStep_state_nc (model : String) (st : StState) (e : RespEvent)
    (h : isCompletedEvent e = false) :
    (streamStep model st e).1.input_tokens = st.input_tokens ∧
    (streamStep model st e).1.output_tokens = st.output_tokens ∧
    (streamStep model st e).1.usage = st.usage := by
  cases e with
  | outputTextDelta d =>
      cases d with
      | none => exact ⟨rfl, rfl, rfl⟩
      | some d =>
          by_cases hd : d.data.isEmpty <;> simp [streamStep, hd]
  | functionCallOutputDelta d => exact ⟨rfl, rfl, rfl⟩
  | completed u => simp [isCompletedEvent] at h
  | otherType => exact ⟨rfl, rfl, rfl⟩
  | untyped => exact ⟨rfl, rfl, rfl⟩

lemma eventChunks_countP_done (e : RespEvent) (h : isCompletedEvent e = false) :
    (eventChunks e).countP (fun c => c.type == "done") = 0 := by
  cases e with
  | outputTextDelta d =>
      cases d with
      | none => rfl
      | some d =>
          by_cases hd : d.data.isEmpty <;>
            simp [eventChunks, hd, contentChunk, List.countP_cons]
  | functionCallOutputDelta d =>
      simp [eventChunks, toolCallsChunk, List.countP_cons]
  | completed u => simp [isCompletedEvent] at h
  | otherType => rfl
  | untyped => rfl

lemma eventChunks_countP_error (e : RespEvent) :
    (eventChunks e).countP (fun c => c.type == "error") = 0 := by
  cases e with
  | outputTextDelta d =>
      cases d with
      | none => rfl
      | some d =>
          by_cases hd : d.data.isEmpty <;>
            simp [eventChunks, hd, contentChunk, List.countP_cons]
  | functionCallOutputDelta d =>
      simp [eventChunks, toolCallsChunk, List.countP_cons]
  | completed u =>
      simp [eventChunks, doneCompletedChunk, List.countP_cons]
  | otherType => rfl
  | untyped => rfl

lemma runEvents_append (model : String) (xs ys : List RespEvent) :
    ∀ st : StState,
      runEvents model st (xs ++ ys)
        = ((runEvents model (runEvents model st xs).1 ys).1,
           (runEvents model st xs).2 ++ (runEvents model (runEvents model st xs).1 ys).2) := by
  induction xs with
  | nil => intro st; simp [runEvents]
  | cons e es ih =>
      intro st
      simp only [List.cons_append, runEvents, List.append_eq, ih, List.append_assoc]

lemma runEvents_state_nc (model : String) (es : List RespEvent) :
    ∀ st : StState, es.countP (fun e => isCompletedEvent e) = 0 →
      (runEvents model st es).1.input_tokens = st.input_tokens ∧
      (runEvents model st es).1.output_tokens = st.output_tokens ∧
      (runEvents model st es).1.usage = st.usage := by
  induction es with
  | nil => intro st _; exact ⟨rfl, rfl, rfl⟩
  | cons e es ih =>
      intro st h
      rw [List.countP_cons] at h
      have hes : es.countP (fun e => isCompletedEvent e) = 0 :=
        Nat.eq_zero_of_add_eq_zero_right h
      have he : isCompletedEvent e = false := by
        by_cases hc : isCompletedEvent e
        · rw [hes] at h; simp [hc] at h
        · simpa using hc
      have h1 := streamStep_state_nc model st e he
      have h2 := ih (streamStep model st e).1 hes
      exact ⟨h2.1.trans h1.1, h2.2.1.trans h1.2.1, h2.2.2.trans h1.2.2⟩

lemma runEvents_countP_done (model : String) (es : List RespEvent) :
    ∀ st : StState, es.countP (fun e => isCompletedEvent e) = 0 →
      ((runEvents model st es).2).countP (fun c => c.type == "done") = 0 := by
  induction es with
  | nil => intro st _; rfl
  | cons e es ih =>
      intro st h
      rw [List.countP_cons] at h
      have hes : es.countP (fun e => isCompletedEvent e) = 0 :=
        Nat.eq_zero_of_add_eq_zero_right h
      have he : isCompletedEvent e = false := by
        by_cases hc : isCompletedEvent e
        · rw [hes] at h; simp [hc] at h
        · simpa using hc
      show ((streamStep model st e).2 ++ _).countP _ = 0
      rw [List.countP_append, streamStep_snd, eventChunks_countP_done e he,
        ih (streamStep model st e).1 hes]

lemma runEvents_countP_error (model : String) (es : List RespEvent) :
    ∀ st : StState,
      ((runEvents model st es).2).countP (fun c => c.type == "error") = 0 := by
  induction es with
  | nil => intro st; rfl
  | cons e es ih =>
      intro st
      show ((streamStep model st e).2 ++ _).countP _ = 0
      rw [List.countP_append, streamStep_snd, eventChunks_countP_error e,
        ih (streamStep model st e).1]

/-- C1 counterexample: a provider stream whose `response.completed`
event is followed by a further text delta makes `stream_with_tools`
yield a `content` chunk after the `done` chunk, refuting "exactly one
`done`, and it is the last chunk". -/
theorem stream_done_terminal_cex :
    ¬ terminal_done
        (stream_with_tools "gpt-4o" freshTokenUsage
          [.completed none, .outputTextDelta (some "hi")] none).chunks := by
  decide

/-- C1 (amended): `stream_with_tools` yields one `done` chunk per
`response.completed` event it consumes; when no exception is raised and
the consumed provider stream contains exactly one `response.completed`
event, positioned last, then exactly one `done` chunk is emitted and it
is the last chunk of the sequence. -/
theorem stream_done_terminal (model : String) (u0 : TokenUsage)
    (pre : List RespEvent) (um : Option UsageMeta)
    (hpre : pre.countP (fun e => isCompletedEvent e) = 0) :
    terminal_done
      (stream_with_tools model u0 (pre ++ [.completed um]) none).chunks := by
  have hsplit := runEvents_append model pre [.completed um]
    { text_content := "", input_tokens := 0, output_tokens := 0, usage := u0 }
  constructor
  · show ((runEvents model _ (pre ++ [.completed um])).2).countP _ = 1
    rw [hsplit]
    rw [List.countP_append]
    rw [runEvents_countP_done model pre _ hpre]
    rfl
  · show ((runEvents model _ (pre ++ [.completed um])).2).getLast?.map _ = _
    rw [hsplit]
    have : (runEvents model ((runEvents model
        { text_content := "", input_tokens := 0, output_tokens := 0, usage := u0 } pre).1)
        [.completed um]).2 = [doneCompletedChunk] := rfl
    rw [this]
    rw [show ((runEvents model
        { text_content := "", input_tokens := 0, output_tokens := 0, usage := u0 } pre).2
        ++ [doneCompletedChunk]).getLast? = some doneCompletedChunk
      from List.getLast?_concat _]
    rfl

/-- C1 witness: the amended statement at a concrete provider stream. -/
theorem stream_done_terminal_witness :
    terminal_done
      (stream_with_tools "gpt-4o" freshTokenUsage
        ([.outputTextDelta (some "hi")]
          ++ [.completed (some ⟨some 5, some 7⟩)]) none).chunks :=
  stream_done_terminal "gpt-4o" freshTokenUsage
    [.outputTextDelta (some "hi")] (some ⟨some 5, some 7⟩) (by decide)

/-- C3: whenever the invocation ends with a backend-raised failure
carrying message `msg`, the yielded sequence contains exactly one
`error` chunk; it is the last chunk, its `error` field is the failure
message and its `source` field is the provider identifier. (In the
embedding the generator returns its chunk list totally: the failure is
converted into the chunk, not re-raised.) -/
theorem stream_error_contained (model : String) (u0 : TokenUsage)
    (events : List RespEvent) (msg : String) :
    ((stream_with_tools model u0 events (some msg)).chunks).countP
        (fun c => c.type == "error") = 1 ∧
    ((stream_with_tools model u0 events (some msg)).chunks).getLast?
        = some (errorChunk msg) ∧
    (errorChunk msg).type = "error" ∧
    (errorChunk msg).error = some msg ∧
    (errorChunk msg).source = some get_provider_name := by
  refine ⟨?_, ?_, rfl, rfl, rfl⟩
  · show ((runEvents model _ events).2 ++ [errorChunk msg]).countP _ = 1
    rw [List.countP_append, runEvents_countP_error model events]
    rfl
  · show ((runEvents model _ events).2 ++ [errorChunk msg]).getLast? = _
    exact List.getLast?_concat _

/-- C8: an invocation that terminates with an `error` chunk without
having consumed any `response.completed` event leaves the backend's
`token_usage` accumulator exactly as it was before the invocation. -/
theorem stream_error_usage_unchanged (model : String) (u0 : TokenUsage)
    (events : List RespEvent) (msg : String)
    (h : events.countP (fun e => isCompletedEvent e) = 0) :
    (stream_with_tools model u0 events (some msg)).usage = u0 := by
  exact (runEvents_state_nc model events
    { text_content := "", input_tokens := 0, output_tokens := 0, usage := u0 } h).2.2

/-- C8 witness: a failing invocation over a stream of two text deltas
leaves the accumulator untouched. -/
theorem stream_error_usage_unchanged_witness :
    (stream_with_tools "gpt-4o" freshTokenUsage
      [.outputTextDelta (some "par"), .outputTextDelta (some "tial")]
      (some "connection reset")).usage = freshTokenUsage :=
  stream_error_usage_unchanged "gpt-4o" freshTokenUsage
    [.outputTextDelta (some "par"), .outputTextDelta (some "tial")]
    "connection reset" (by decide)

/-- C5 counterexample: when a `response.completed` event without a
`usage` attribute follows an earlier completed event that carried
usage `(5, 7)`, the loop re-adds the previously read values instead of
defaulting them to 0: the accumulated `input_tokens` is 10, not the 5
the claim predicts. -/
theorem stream_completed_accounting_cex :
    (stream_with_tools "gpt-4o" freshTokenUsage
      [.completed (some ⟨some 5, some 7⟩), .completed none] none).usage.input_tokens
        = 10 ∧
    ¬ (stream_with_tools "gpt-4o" freshTokenUsage
      [.completed (some ⟨some 5, some 7⟩), .completed none] none).usage.input_tokens
        = 5 := by
  decide

/-- C5 (amended): for a provider stream whose only `response.completed`
event is its last event, `stream_with_tools` reads `input_tokens` and
`output_tokens` from the event's usage metadata — defaulting each to 0
when the usage attribute or its fields are absent (when usage is absent,
the most recently read values are reused, which are the initial zeros
here) — adds them with cost `calculate_cost input_tokens output_tokens
model` into the owned accumulator, and yields a final `done` chunk with
status "completed". -/
theorem stream_completed_accounting (model : String) (u0 : TokenUsage)
    (pre : List RespEvent) (um : Option UsageMeta)
    (hpre : pre.countP (fun e => isCompletedEvent e) = 0) :
    (stream_with_tools model u0 (pre ++ [.completed um]) none).usage
        = u0.add_usage ((um.map fun m => m.input_tokens.getD 0).getD 0)
            ((um.map fun m => m.output_tokens.getD 0).getD 0)
            (calculate_cost ((um.map fun m => m.input_tokens.getD 0).getD 0)
              ((um.map fun m => m.output_tokens.getD 0).getD 0) model) ∧
    ((stream_with_tools model u0 (pre ++ [.completed um]) none).chunks).getLast?
        = some doneCompletedChunk ∧
    doneCompletedChunk.status = some "completed" := by
  have hsplit := runEvents_append model pre [.completed um]
    { text_content := "", input_tokens := 0, output_tokens := 0, usage := u0 }
  have hst := runEvents_state_nc model pre
    { text_content := "", input_tokens := 0, output_tokens := 0, usage := u0 } hpre
  refine ⟨?_, ?_, rfl⟩
  · show (runEvents model _ (pre ++ [.completed um])).1.usage = _
    rw [hsplit]
    cases um with
    | none =>
        show ((runEvents model _ pre).1.usage).add_usage
            (runEvents model _ pre).1.input_tokens
            (runEvents model _ pre).1.output_tokens _ = _
        rw [hst.1, hst.2.1, hst.2.2]
        rfl
    | some m =>
        show ((runEvents model _ pre).1.usage).add_usage
            (m.input_tokens.getD 0) (m.output_tokens.getD 0) _ = _
        rw [hst.2.2]
        rfl
  · show ((runEvents model _ (pre ++ [.completed um])).2).getLast? = _
    rw [hsplit]
    have : (runEvents model ((runEvents model
        { text_content := "", input_tokens := 0, output_tokens := 0, usage := u0 } pre).1)
        [.completed um]).2 = [doneCompletedChunk] := rfl
    rw [this]
    exact List.getLast?_concat _

/-- C5 witness: the amended accounting at a concrete stream of one text
delta followed by a completed event carrying usage `(5, 7)`. -/
theorem stream_completed_accounting_witness :
    (stream_with_tools "gpt-4o" freshTokenUsage
      ([.outputTextDelta (some "hello")]
        ++ [.completed (some ⟨some 5, some 7⟩)]) none).usage
      = freshTokenUsage.add_usage
          (((some (⟨some 5, some 7⟩ : UsageMeta)).map fun m => m.input_tokens.getD 0).getD 0)
          (((some (⟨some 5, some 7⟩ : UsageMeta)).map fun m => m.output_tokens.getD 0).getD 0)
          (calculate_cost
            (((some (⟨some 5, some 7⟩ : UsageMeta)).map fun m => m.input_tokens.getD 0).getD 0)
            (((some (⟨some 5, some 7⟩ : UsageMeta)).map fun m => m.output_tokens.getD 0).getD 0)
            "gpt-4o") :=
  (stream_completed_accounting "gpt-4o" freshTokenUsage
    [.outputTextDelta (some "hello")] (some ⟨some 5, some 7⟩) (by decide)).1

/-! ### Budget-aware streaming (spec §4.1–§4.2)

The orchestrator, `SingleAgent` wrapper and `TimeoutConfig` live in
`massgen/orchestrator.py` / `massgen/agent_config.py`, which are not
among the sources here (only `massgen/tests/test_timeout.py` exercises
them); they are modelled from the spec. -/

/-- `TimeoutConfig`: the recognized timeout/budget options (spec §3). -/
structure TimeoutConfig where
  agent_timeout_seconds : Nat
  agent_max_tokens : Nat
  orchestrator_timeout_seconds : Nat
  orchestrator_max_tokens : Nat
  enable_timeout_fallback : Bool
deriving DecidableEq, Repr

/-- A backend chunk together with the wall-clock seconds elapsed in the
scope when it arrives and the tokens it contributes to the scope's
cumulative count. -/
structure TimedChunk where
  elapsed_seconds : Nat
  tokens : Nat
  chunk : StreamChunk
deriving DecidableEq, Repr

/-- The `error` chunk synthesized when a scope's budget is exceeded
with fallback enabled (spec §4.1: type `error`, message containing
"time limit exceeded"). -/
def budgetErrorChunk : StreamChunk :=
  { type := "error", error := some "time limit exceeded" }

/-- The degraded-completion terminal chunk synthesized after a budget
cut-off (spec §4.2). -/
def doneDegradedChunk : StreamChunk :=
  { type := "done", status := some "timeout" }

/-- Modelled from the spec: the agent-scope budget-aware streaming
contract (spec §4.1–§4.2, implemented by `SingleAgent` /
`Orchestrator`, not among the sources). The budget is evaluated
incrementally as chunks arrive: a chunk arriving past the time ceiling,
or pushing cumulative tokens past the token ceiling, truncates the
backend stream; with `enable_timeout_fallback = true` the synthesized
`error` chunk and a degraded `done` chunk are emitted, otherwise the
exceed propagates as a hard failure. A backend that completes within
budget ends the sequence at its `done` chunk; a backend that never
completes is cut off at the deadline. -/
def respond_with_budget (cfg : TimeoutConfig) :
    Nat → List TimedChunk → Except String (List StreamChunk)
  | _, [] =>
      if cfg.enable_timeout_fallback then .ok [budgetErrorChunk, doneDegradedChunk]
      else .error "time limit exceeded"
  | toks, tc :: rest =>
      if cfg.agent_timeout_seconds < tc.elapsed_seconds
          ∨ cfg.agent_max_tokens < toks + tc.tokens then
        if cfg.enable_timeout_fallback then .ok [budgetErrorChunk, doneDegradedChunk]
        else .error "time limit exceeded"
      else if tc.chunk.type = "done" then .ok [tc.chunk]
      else (respond_with_budget cfg (toks + tc.tokens) rest).map (fun cs => tc.chunk :: cs)

/-- The configuration of the timeout scenario in
`massgen/tests/test_timeout.py` (`test_agent_timeout`). -/
def testTimeoutConfig : TimeoutConfig :=
  { agent_timeout_seconds := 10
    agent_max_tokens := 1000
    orchestrator_timeout_seconds := 600
    orchestrator_max_tokens := 1000
    enable_timeout_fallback := true }

/-- C7: with `agent_timeout_seconds = 10`, `agent_max_tokens = 1000`
and fallback enabled, a backend that never completes within the
deadline (it emits no `done` chunk at or before 10 elapsed seconds)
yields a merged stream ending in an `error` chunk whose message
contains "time limit exceeded", followed by a `done` chunk with a
degraded (non-"completed") status. -/
theorem agent_timeout_fallback (produced : List TimedChunk)
    (hnd : ∀ tc ∈ produced, tc.chunk.type = "done" →
      testTimeoutConfig.agent_timeout_seconds < tc.elapsed_seconds) :
    ∃ relayed,
      respond_with_budget testTimeoutConfig 0 produced
        = .ok (relayed ++ [budgetErrorChunk, doneDegradedChunk]) ∧
      budgetErrorChunk.type = "error" ∧
      (∃ p q, budgetErrorChunk.error = some (p ++ "time limit exceeded" ++ q)) ∧
      doneDegradedChunk.type = "done" ∧
      doneDegradedChunk.status = some "timeout" ∧
      doneDegradedChunk.status ≠ some "completed" := by
  suffices h : ∀ toks, ∃ relayed,
      respond_with_budget testTimeoutConfig toks produced
        = .ok (relayed ++ [budgetErrorChunk, doneDegradedChunk]) by
    obtain ⟨relayed, hr⟩ := h 0
    exact ⟨relayed, hr, rfl, ⟨"", "", rfl⟩, rfl, rfl, by decide⟩
  induction produced with
  | nil =>
      intro toks
      exact ⟨[], rfl⟩
  | cons tc rest ih =>
      intro toks
      by_cases hb : testTimeoutConfig.agent_timeout_seconds < tc.elapsed_seconds
          ∨ testTimeoutConfig.agent_max_tokens < toks + tc.tokens
      · refine ⟨[], ?_⟩
        simp only [respond_with_budget, if_pos hb]
        rfl
      · have hdone : ¬ tc.chunk.type = "done" := by
          intro hd
          exact hb (Or.inl (hnd tc (List.mem_cons_self tc rest) hd))
        have hrest : ∀ tc' ∈ rest, tc'.chunk.type = "done" →
            testTimeoutConfig.agent_timeout_seconds < tc'.elapsed_seconds :=
          fun tc' htc' => hnd tc' (List.mem_cons_of_mem tc htc')
        obtain ⟨relayed, hr⟩ := ih hrest (toks + tc.tokens)
        refine ⟨tc.chunk :: relayed, ?_⟩
        simp only [respond_with_budget, if_neg hb, if_neg hdone, hr, Except.map]
        rfl

/-- C7 witness: a concrete backend stream that keeps producing content
past the 10-second deadline is cut off with the synthesized error and
degraded done chunks. -/
theorem agent_timeout_fallback_witness :
    ∃ relayed,
      respond_with_budget testTimeoutConfig 0
          [⟨3, 50, contentChunk "working"⟩, ⟨12, 50, contentChunk "still working"⟩]
        = .ok (relayed ++ [budgetErrorChunk, doneDegradedChunk]) ∧
      budgetErrorChunk.type = "error" ∧
      (∃ p q, budgetErrorChunk.error = some (p ++ "time limit exceeded" ++ q)) ∧
      doneDegradedChunk.type = "done" ∧
      doneDegradedChunk.status = some "timeout" ∧
      doneDegradedChunk.status ≠ some "completed" :=
  agent_timeout_fallback
    [⟨3, 50, contentChunk "working"⟩, ⟨12, 50, contentChunk "still working"⟩]
    (by intro tc htc hd; fin_cases htc <;> simp [contentChunk] at hd ⊢)

end MassGen
